import Mathlib

/-! Verification of the Poe GitHub-Copilot gateway bot
(`VsCodeChat/poe/github-copilot-bot.py`).

Python strings are modelled as `List Char`, Python `None` / absent values as
`Option`, and code that can raise an uncaught Python exception returns a
distinguished error value.  Unless a doc comment says otherwise, every
definition is a direct translation of the Python source. -/

namespace CopilotBot

def chars (s : String) : List Char := s.toList

/-- The ASCII whitespace removed by Python's `str.strip()`
(space, tab, newline, carriage return, vertical tab, form feed). -/
def isPyWs (c : Char) : Bool :=
  c = ' ' || c = '\t' || c = '\n' || c = '\r' || c = Char.ofNat 11 || c = Char.ofNat 12

/-- Python `str.strip()`. -/
def pyStrip (s : List Char) : List Char :=
  ((s.dropWhile isPyWs).reverse.dropWhile isPyWs).reverse

/-- Python truthiness of an optional string: `None` and `""` are falsy. -/
def optTruthy : Option (List Char) → Bool
  | none => false
  | some s => !s.isEmpty

/-- Worker for Python `str.find(sub)`: first index `≥ i` at which `sub`
starts in the remaining text (`none` models Python's `-1`). -/
def findAux : List Char → List Char → Nat → Option Nat
  | [], sub, i => if sub.isEmpty then some i else none
  | c :: rest, sub, i =>
    if sub.isPrefixOf (c :: rest) then some i else findAux rest sub (i + 1)

/-- Python `s.find(sub)`. -/
def pyFind (s sub : List Char) : Option Nat := findAux s sub 0

/-- Python `sub in s` (substring containment). -/
def containsSub (s sub : List Char) : Bool := (pyFind s sub).isSome

/-- The literal routing-hint marker `"proxy-ep="`. -/
def markerL : List Char := chars "proxy-ep="

/-- `get_proxy_endpoint` (lines 166-177): scan the credential for
`proxy-ep=`, return the text up to the next `;` or the end of the string. -/
def get_proxy_endpoint (token_value : List Char) : Option (List Char) :=
  if token_value.isEmpty then none
  else
    match pyFind token_value markerL with
    | none => none
    | some i =>
      let start := i + markerL.length
      let tail := token_value.drop start
      match pyFind tail [';'] with
      | none => some tail
      | some j => some (tail.take j)

/-- `is_codex_model` (line 194): `"codex" in model.lower()`. -/
def is_codex_model (model : List Char) : Bool :=
  containsSub (model.map Char.toLower) (chars "codex")

/-- `is_internal_model` (line 195): `model.startswith("copilot-")`. -/
def is_internal_model (model : List Char) : Bool :=
  (chars "copilot-").isPrefixOf model

def enterpriseHostL : List Char := chars "https://copilot-proxy.githubusercontent.com"

def publicHostL : List Char := chars "https://api.githubcopilot.com"

/-- Base-host selection (lines 200-209). -/
def base_host (model : List Char) (proxy_ep : Option (List Char)) : List Char :=
  if is_internal_model model then
    if optTruthy proxy_ep then
      let ep := proxy_ep.getD []
      if (chars "http").isPrefixOf ep then ep else chars "https://" ++ ep
    else enterpriseHostL
  else publicHostL

def defaultModelL : List Char := chars "gpt-4o"

/-- `get_param` (lines 151-155) for string-valued parameters: an absent key
falls back to the default, and string values are whitespace-stripped. -/
def get_param_str (v : Option (List Char)) (d : List Char) : List Char :=
  pyStrip (v.getD d)

/-- Model resolution (lines 180-185): the sentinel `"custom"` selects the
`custom_model` parameter. -/
def resolve_model (modelP customP : Option (List Char)) : List Char :=
  let m := get_param_str modelP defaultModelL
  if m = chars "custom" then get_param_str customP defaultModelL else m

/-! ### JSON values and a model of Python `json.loads` -/

/-- JSON values as produced by `json.loads`.  Numbers are modelled by the
integer value of their integer part (fractional and exponent digits are
validated by the parser but not stored; no claim depends on numeric
values). -/
inductive Json where
  | null
  | bool (b : Bool)
  | num (n : Int)
  | str (s : List Char)
  | arr (elems : List Json)
  | obj (members : List (List Char × Json))

/-- Python truthiness of a JSON value. -/
def truthyJson : Json → Bool
  | .null => false
  | .bool b => b
  | .num n => n != 0
  | .str s => !s.isEmpty
  | .arr xs => !xs.isEmpty
  | .obj kvs => !kvs.isEmpty

/-- Python dict lookup on an object decoded by `json.loads`: the last
binding of a duplicated key wins, as in a Python dict built left to right. -/
def pyLookup (kvs : List (List Char × Json)) (k : List Char) : Option Json :=
  List.lookup k kvs.reverse

def isJsonWs (c : Char) : Bool := c = ' ' || c = '\t' || c = '\n' || c = '\r'

def skipWs (s : List Char) : List Char := s.dropWhile isJsonWs

def hexVal (c : Char) : Option Nat :=
  if '0' ≤ c ∧ c ≤ '9' then some (c.toNat - '0'.toNat)
  else if 'a' ≤ c ∧ c ≤ 'f' then some (c.toNat - 'a'.toNat + 10)
  else if 'A' ≤ c ∧ c ≤ 'F' then some (c.toNat - 'A'.toNat + 10)
  else none

/-- Parse the body of a JSON string literal after the opening quote, up to
and past the closing quote.  Escapes are decoded as by `json.loads`
(`\uXXXX` becomes one code unit; surrogate-pair combination is not modelled,
no claim exercises it). -/
def parseStringBody : Nat → List Char → Option (List Char × List Char)
  | 0, _ => none
  | _ + 1, [] => none
  | f + 1, c :: rest =>
    if c = '"' then some ([], rest)
    else if c = '\\' then
      match rest with
      | [] => none
      | e :: rest2 =>
        if e = 'u' then
          match rest2 with
          | h1 :: h2 :: h3 :: h4 :: rest3 =>
            match hexVal h1, hexVal h2, hexVal h3, hexVal h4 with
            | some n1, some n2, some n3, some n4 =>
              (parseStringBody f rest3).map
                (fun p => (Char.ofNat (((n1 * 16 + n2) * 16 + n3) * 16 + n4) :: p.1, p.2))
            | _, _, _, _ => none
          | _ => none
        else
          match
            (if e = '"' then some '"'
             else if e = '\\' then some '\\'
             else if e = '/' then some '/'
             else if e = 'b' then some (Char.ofNat 8)
             else if e = 'f' then some (Char.ofNat 12)
             else if e = 'n' then some '\n'
             else if e = 'r' then some '\r'
             else if e = 't' then some '\t'
             else none) with
          | some ch => (parseStringBody f rest2).map (fun p => (ch :: p.1, p.2))
          | none => none
    else if c.toNat < 32 then none
    else (parseStringBody f rest).map (fun p => (c :: p.1, p.2))

def digitsToInt (ds : List Char) : Int :=
  ds.foldl (fun acc c => acc * 10 + ((c.toNat : Int) - ('0'.toNat : Int))) 0

/-- Validate an optional fraction and exponent of a JSON number; the digits
are checked but discarded. -/
def parseFracExp (s : List Char) : Option (List Char) :=
  let afterFrac : Option (List Char) :=
    match s with
    | '.' :: r =>
      match List.span Char.isDigit r with
      | ([], _) => none
      | (_, r2) => some r2
    | _ => some s
  match afterFrac with
  | none => none
  | some s2 =>
    match s2 with
    | 'e' :: r | 'E' :: r =>
      let r2 := match r with
        | '+' :: rr => rr
        | '-' :: rr => rr
        | _ => r
      match List.span Char.isDigit r2 with
      | ([], _) => none
      | (_, r3) => some r3
    | _ => some s2

/-- Parse a JSON number token (strict grammar); returns the integer part's
value. -/
def parseNumber (s : List Char) : Option (Int × List Char) :=
  let p : Bool × List Char :=
    match s with
    | '-' :: r => (true, r)
    | _ => (false, s)
  let intPart : Option (Int × List Char) :=
    match p.2 with
    | '0' :: r => some (0, r)
    | c :: _ =>
      if c.isDigit then
        match List.span Char.isDigit p.2 with
        | (ds, r) => some (digitsToInt ds, r)
      else none
    | [] => none
  match intPart with
  | none => none
  | some (v, r) =>
    match parseFracExp r with
    | none => none
    | some r2 => some ((if p.1 then -v else v), r2)

inductive PMode where
  | val
  | members
  | items

inductive PRes where
  | val (j : Json)
  | members (ms : List (List Char × Json))
  | items (xs : List Json)

/-- Fuel-indexed recursive-descent parser for the strict JSON grammar
accepted by `json.loads` (the `NaN`/`Infinity` extensions are not modelled;
no claim exercises them). -/
def parseF : Nat → PMode → List Char → Option (PRes × List Char)
  | 0, _, _ => none
  | f + 1, .val, s =>
    match skipWs s with
    | [] => none
    | c :: rest =>
      if c = '{' then
        match skipWs rest with
        | '}' :: r => some (.val (.obj []), r)
        | _ =>
          match parseF f .members rest with
          | some (.members ms, r) => some (.val (.obj ms), r)
          | _ => none
      else if c = '[' then
        match skipWs rest with
        | ']' :: r => some (.val (.arr []), r)
        | _ =>
          match parseF f .items rest with
          | some (.items xs, r) => some (.val (.arr xs), r)
          | _ => none
      else if c = '"' then
        (parseStringBody (f + 1) rest).map (fun p => (.val (.str p.1), p.2))
      else if c = 't' then
        if (chars "rue").isPrefixOf rest then some (.val (.bool true), rest.drop 3)
        else none
      else if c = 'f' then
        if (chars "alse").isPrefixOf rest then some (.val (.bool false), rest.drop 4)
        else none
      else if c = 'n' then
        if (chars "ull").isPrefixOf rest then some (.val .null, rest.drop 3)
        else none
      else if c = '-' || c.isDigit then
        (parseNumber (c :: rest)).map (fun p => (.val (.num p.1), p.2))
      else none
  | f + 1, .members, s =>
    match skipWs s with
    | '"' :: rest =>
      match parseStringBody (f + 1) rest with
      | some (key, r1) =>
        match skipWs r1 with
        | ':' :: r2 =>
          match parseF f .val r2 with
          | some (.val v, r3) =>
            (match skipWs r3 with
             | ',' :: r4 =>
               match parseF f .members r4 with
               | some (.members ms, r5) => some (.members ((key, v) :: ms), r5)
               | _ => none
             | '}' :: r4 => some (.members [(key, v)], r4)
             | _ => none)
          | _ => none
        | _ => none
      | none => none
    | _ => none
  | f + 1, .items, s =>
    match parseF f .val s with
    | some (.val v, r) =>
      (match skipWs r with
       | ',' :: r2 =>
         match parseF f .items r2 with
         | some (.items xs, r3) => some (.items (v :: xs), r3)
         | _ => none
       | ']' :: r2 => some (.items [v], r2)
       | _ => none)
    | _ => none

/-- Python `json.loads`: parse one JSON value and require only trailing
whitespace after it (`none` models `json.JSONDecodeError`). -/
def json_loads (s : List Char) : Option Json :=
  match parseF (s.length + 1) .val s with
  | some (.val j, r) => if (skipWs r).isEmpty then some j else none
  | _ => none

/-! ### Token broker client -/

def acquiredL : List Char := chars "acquired"

/-- Result of `_try_extract_token`: `crash` models the uncaught
`AttributeError` raised when `json.loads` yields a non-dict (only
`json.JSONDecodeError` is caught by the source). -/
inductive ExtractTok where
  | crash
  | tok (t : Option Json)

/-- `_try_extract_token` (lines 121-129) applied to the broker response
text: on a JSON decode error return `None`; if the decoded object's
`status` equals `"acquired"` (a Python `==` that only a string value can
satisfy), return its `copilot_token` field. -/
def try_extract_token (text : List Char) : ExtractTok :=
  match json_loads text with
  | none => .tok none
  | some (.obj kvs) =>
    match pyLookup kvs (chars "status") with
    | some (.str s) =>
      if s = acquiredL then .tok (pyLookup kvs (chars "copilot_token"))
      else .tok none
    | _ => .tok none
  | some _ => .crash

def jTruthyOpt : Option Json → Bool
  | none => false
  | some j => truthyJson j

/-- The three broker operations of the driving algorithm. -/
inductive BrokerOp where
  | quickQuery
  | interactiveFlow
  | requeryAfterFlow
deriving DecidableEq

/-- Outcome of the credential-acquisition prologue of `run`. -/
inductive AcquireResult where
  | key (j : Json)
  | botError (msg : List Char)
  | crash

def authErrorMsg : List Char :=
  chars "Could not authenticate with GitHub Copilot. Please provide an API key or complete the GitHub authentication flow."

/-- `_get_token` (lines 131-144) combined with the `run` prologue
(lines 187-191).  `quickText` and `requeryText` are the texts of the two
`VSC-CPT` `query_token` responses; the returned list records the broker
operations performed, in order (the `auth_flow` call is the interactive
flow). -/
def acquire_api_key (supplied : Option (List Char))
    (quickText requeryText : List Char) : AcquireResult × List BrokerOp :=
  let sup := supplied.map pyStrip
  if optTruthy sup then (.key (.str (sup.getD [])), [])
  else
    match try_extract_token quickText with
    | .crash => (.crash, [.quickQuery])
    | .tok t =>
      if jTruthyOpt t then (.key (t.getD .null), [.quickQuery])
      else
        match try_extract_token requeryText with
        | .crash => (.crash, [.quickQuery, .interactiveFlow, .requeryAfterFlow])
        | .tok t2 =>
          if jTruthyOpt t2 then
            (.key (t2.getD .null), [.quickQuery, .interactiveFlow, .requeryAfterFlow])
          else
            (.botError authErrorMsg, [.quickQuery, .interactiveFlow, .requeryAfterFlow])

/-! ### Payload shaping -/

/-- A chat message dict with `role` and `content` keys (always both present
in the dicts `run` builds, lines 231-244). -/
structure Msg where
  role : List Char
  content : List Char
deriving DecidableEq

/-- One line of the flattened prompt: `f"{role}: {content}"`. -/
def fmtMsg (m : Msg) : List Char := m.role ++ chars ": " ++ m.content

/-- `messages_to_prompt` (lines 157-164): one `"<role>: <text>"` line per
message, a trailing `"assistant:"` line, joined by newlines.  (The `.get`
defaults `"user"` and `""` never fire for the dicts `run` builds.) -/
def messages_to_prompt (message_list : List Msg) : List Char :=
  List.intercalate ['\n'] (message_list.map fmtMsg ++ [chars "assistant:"])

def msgJson (m : Msg) : Json :=
  .obj [(chars "role", .str m.role), (chars "content", .str m.content)]

/-- Request-body construction (lines 258-280).  The float-valued sampling
parameters are carried opaquely as JSON values; `max_tokens` is the slider's
integer value, whose default 0 stands for "unset / no limit" (Python's
`int()` is the identity on it, and `if max_tokens and int(max_tokens) > 0`
becomes the conjunction below). -/
def build_payload (isResp : Bool) (model : List Char) (msgs : List Msg)
    (temperature top_p frequency_penalty presence_penalty : Json)
    (max_tokens : Int) : List (List Char × Json) :=
  let base : List (List Char × Json) :=
    if isResp then
      [(chars "model", .str model),
       (chars "input", .str (messages_to_prompt msgs)),
       (chars "stream", .bool true)]
    else
      [(chars "model", .str model),
       (chars "messages", .arr (msgs.map msgJson)),
       (chars "stream", .bool true),
       (chars "temperature", temperature),
       (chars "top_p", top_p),
       (chars "frequency_penalty", frequency_penalty),
       (chars "presence_penalty", presence_penalty)]
  if max_tokens ≠ 0 ∧ max_tokens > 0 then
    base ++ [(chars "max_tokens", .num max_tokens)]
  else base

/-! ### Streaming completion client -/

def eventPL : List Char := chars "event: "
def dataPL : List Char := chars "data: "
def doneL : List Char := chars "[DONE]"
def deltaEventL : List Char := chars "response.output_text.delta"

/-- Delta extraction for the `/chat/completions` shape (lines 312-318);
`none` models an uncaught Python exception (`.get` on a non-dict, indexing a
non-sequence, or writing a non-string), `some ds` the text fragments
written. -/
def extractChat (chunk : Json) : Option (List (List Char)) :=
  match chunk with
  | .obj kvs =>
    match (pyLookup kvs (chars "choices")).getD (.arr []) with
    | .arr [] => some []
    | .arr (c0 :: _) =>
      match c0 with
      | .obj ckvs =>
        match (pyLookup ckvs (chars "delta")).getD (.obj []) with
        | .obj dkvs =>
          match (pyLookup dkvs (chars "content")).getD (.str []) with
          | .str s => some (if s.isEmpty then [] else [s])
          | c => if truthyJson c then none else some []
        | _ => none
      | _ => none
    | c => if truthyJson c then none else some []
  | _ => none

/-- Delta extraction for the `/responses` shape (lines 305-310); `none`
models an uncaught Python exception (`in` or `.get` on an unsupported
type). -/
def extractResponses (currentEvent : List Char) (chunk : Json) :
    Option (List (List Char)) :=
  if currentEvent = deltaEventL then
    match chunk with
    | .obj kvs =>
      if (pyLookup kvs (chars "delta")).isSome then
        match (pyLookup kvs (chars "delta")).getD (.str []) with
        | .str s => some (if s.isEmpty then [] else [s])
        | c => if truthyJson c then none else some []
      else some []
    | .arr xs =>
      if xs.any (fun j => match j with | .str s => s = chars "delta" | _ => false)
      then none else some []
    | .str s => if containsSub s (chars "delta") then none else some []
    | _ => none
  else some []

def extract_content (isResp : Bool) (ev : List Char) (chunk : Json) :
    Option (List (List Char)) :=
  if isResp then extractResponses ev chunk else extractChat chunk

/-- Result of the line-processing loop: `crash` models an uncaught Python
exception (no claim mixes already-written deltas with a crash). -/
inductive StreamRes where
  | ok (deltas : List (List Char))
  | crash

/-- The SSE line loop (lines 291-320): `event: ` lines update the current
event name, `data: ` lines carry payloads, `[DONE]` breaks, malformed JSON
is skipped, all other lines are ignored. -/
def processLines (isResp : Bool) : List (List Char) → List Char → StreamRes
  | [], _ => .ok []
  | line :: rest, ev =>
    if eventPL.isPrefixOf line then processLines isResp rest (line.drop 7)
    else if dataPL.isPrefixOf line then
      let data := line.drop 6
      if data = doneL then .ok []
      else
        match json_loads data with
        | none => processLines isResp rest ev
        | some chunk =>
          match extract_content isResp ev chunk with
          | none => .crash
          | some ds =>
            match processLines isResp rest ev with
            | .ok tail => .ok (ds ++ tail)
            | .crash => .crash
    else processLines isResp rest ev

/-- The upstream HTTP response as seen by the streaming client: initial
status code, body text, and the SSE lines of the stream. -/
structure HttpResponse where
  status_code : Nat
  body : List Char
  lines : List (List Char)

inductive StreamOutcome where
  | ok (deltas : List (List Char))
  | botError (msg : List Char)
  | crash

/-- The `BotError` text `f"API error ({response.status_code}): {error_text}"`
of line 289. -/
def api_error_msg (status : Nat) (body : List Char) : List Char :=
  chars "API error (" ++ (Nat.repr status).toList ++ chars "): " ++ body

/-- The streaming part of `run` (lines 283-320): a non-200 initial status is
rejected, with the body as diagnostic text, before any line of the stream is
read; otherwise the lines are processed in order. -/
def run_stream (isResp : Bool) (resp : HttpResponse) : StreamOutcome :=
  if resp.status_code = 200 then
    match processLines isResp resp.lines [] with
    | .ok ds => .ok ds
    | .crash => .crash
  else .botError (api_error_msg resp.status_code resp.body)

/-- The text deltas yielded by a streaming outcome. -/
def stream_deltas : StreamOutcome → List (List Char)
  | .ok ds => ds
  | _ => []

/-! ### Endpoint resolver shape selection (spec-modelled part) -/

/-- The request-shape tag of the spec's data model. -/
inductive RequestShape where
  | chatCompletions
  | responsesAPI
  | legacyCompletions
deriving DecidableEq

def chatSuffixL : List Char := chars "/chat/completions"
def v1ChatSuffixL : List Char := chars "/v1/chat/completions"
def completionsL : List Char := chars "/completions"

/-- Modelled from the spec: the shape-selection rule of the endpoint
resolver (spec section 4.1, rule 3), applied to the path the request would
otherwise use.  The branch that rewrites a chat-completions path to a legacy
completions path for codex-family models is implemented by the repository's
PowerShell client, which is not under `src/`; `github-copilot-bot.py`
(lines 211-221) only ports its responses-style branch, per its "matching
PowerShell logic" comments.  So that rewrite is modelled from the spec's
words: strip a `/v1/chat/completions` or `/chat/completions` suffix, append
`/completions`, and tag the request LegacyCompletions; a codex model whose
path is not a chat-completions path keeps its path with the ResponsesAPI
tag, and a non-codex model keeps its path with the ChatCompletions tag. -/
def resolve_shape (model : List Char) (path : List Char) :
    List Char × RequestShape :=
  if is_codex_model model then
    if v1ChatSuffixL.isSuffixOf path then
      (path.take (path.length - v1ChatSuffixL.length) ++ completionsL,
       .legacyCompletions)
    else if chatSuffixL.isSuffixOf path then
      (path.take (path.length - chatSuffixL.length) ++ completionsL,
       .legacyCompletions)
    else (path, .responsesAPI)
  else (path, .chatCompletions)

/-! ### Search lemmas for `pyFind` -/

theorem findAux_shift (s sub : List Char) (n : Nat) :
    findAux s sub n = (findAux s sub 0).map (· + n) := by
  induction s generalizing n with
  | nil =>
    by_cases h : sub.isEmpty <;> simp [findAux, h]
  | cons c rest ih =>
    simp only [findAux]
    by_cases h : sub.isPrefixOf (c :: rest)
    · simp [h]
    · rw [if_neg h, if_neg h, ih (n + 1), ih 1]
      cases findAux rest sub 0 with
      | none => rfl
      | some v => simp; omega

theorem isPrefixOf_append_self (l t : List Char) : l.isPrefixOf (l ++ t) = true := by
  simp [List.isPrefixOf_iff_prefix]

theorem findAux_cons (c : Char) (s sub : List Char)
    (h : sub.isPrefixOf (c :: s) = false) :
    pyFind (c :: s) sub = (pyFind s sub).map (· + 1) := by
  rw [show pyFind (c :: s) sub = findAux s sub 1 from by simp [pyFind, findAux, h]]
  exact findAux_shift s sub 1

theorem findAux_append_first (a t sub : List Char)
    (h : ∀ i, i < a.length → sub.isPrefixOf ((a ++ t).drop i) = false)
    (h2 : sub.isPrefixOf t = true) :
    pyFind (a ++ t) sub = some a.length := by
  induction a with
  | nil =>
    cases t with
    | nil =>
      have hsub : sub = [] := by
        cases sub with
        | nil => rfl
        | cons x xs => simp [List.isPrefixOf] at h2
      simp [pyFind, findAux, hsub]
    | cons c r => simp [pyFind, findAux, h2]
  | cons c a' ih =>
    have h0 : sub.isPrefixOf (c :: (a' ++ t)) = false := by
      have := h 0 (by simp)
      simpa using this
    have hrec : pyFind (a' ++ t) sub = some a'.length := by
      refine ih (fun i hi => ?_)
      have := h (i + 1) (by simpa using Nat.succ_lt_succ hi)
      simpa using this
    rw [List.cons_append, findAux_cons c (a' ++ t) sub h0, hrec]
    simp

theorem findAux_none (s sub : List Char)
    (h : ∀ i, sub.isPrefixOf (s.drop i) = false) :
    pyFind s sub = none := by
  induction s with
  | nil =>
    have h0 := h 0
    have : sub.isEmpty = false := by
      cases sub with
      | nil => simp [List.isPrefixOf] at h0
      | cons x xs => rfl
    simp [pyFind, findAux, this]
  | cons c rest ih =>
    have h0 : sub.isPrefixOf (c :: rest) = false := by simpa using h 0
    have hrec : pyFind rest sub = none := ih (fun i => by simpa using h (i + 1))
    rw [findAux_cons c rest sub h0, hrec]
    rfl

theorem pyFind_semi (x b : List Char) (c : Char) (hx : c ∉ x) :
    pyFind (x ++ c :: b) [c] = some x.length := by
  induction x with
  | nil => simp [pyFind, findAux, List.isPrefixOf]
  | cons d x' ih =>
    have hdc : (c == d) = false := by
      simp only [beq_eq_false_iff_ne, ne_eq]
      intro hcd
      exact hx (by simp [hcd])
    have hrec := ih (fun hmem => hx (List.mem_cons_of_mem _ hmem))
    have h0 : ([c]).isPrefixOf (d :: (x' ++ c :: b)) = false := by
      simp [List.isPrefixOf, hdc]
    rw [List.cons_append, findAux_cons d (x' ++ c :: b) [c] h0, hrec]
    simp

theorem pyFind_single_none (x : List Char) (c : Char) (hx : c ∉ x) :
    pyFind x [c] = none := by
  refine findAux_none x [c] (fun i => ?_)
  cases hdrop : x.drop i with
  | nil => rfl
  | cons d r =>
    have hd : d ∈ x := by
      have : d ∈ x.drop i := by simp [hdrop]
      exact List.mem_of_mem_drop this
    have : (c == d) = false := by
      simp only [beq_eq_false_iff_ne, ne_eq]
      intro hcd
      exact hx (hcd ▸ hd)
    simp [List.isPrefixOf, this]

/-! ### Behaviour of `get_proxy_endpoint` -/

theorem gpe_split (a rest : List Char)
    (h : ∀ i, i < a.length →
      markerL.isPrefixOf ((a ++ (markerL ++ rest)).drop i) = false) :
    get_proxy_endpoint (a ++ (markerL ++ rest)) =
      (match pyFind rest [';'] with
       | none => some rest
       | some j => some (rest.take j)) := by
  have hfind : pyFind (a ++ (markerL ++ rest)) markerL = some a.length :=
    findAux_append_first a (markerL ++ rest) markerL h
      (isPrefixOf_append_self markerL rest)
  have hne : (a ++ (markerL ++ rest)).isEmpty = false := by
    cases a <;> simp [markerL, chars]
  have hdrop : (a ++ (markerL ++ rest)).drop (a.length + markerL.length) = rest := by
    rw [show a ++ (markerL ++ rest) = (a ++ markerL) ++ rest by simp]
    exact List.drop_left' (by simp)
  simp only [get_proxy_endpoint, hne, Bool.false_eq_true, if_false, hfind, hdrop]

theorem gpe_no_marker (s : List Char)
    (h : ∀ i, i < s.length → markerL.isPrefixOf (s.drop i) = false) :
    get_proxy_endpoint s = none := by
  have h' : ∀ i, markerL.isPrefixOf (s.drop i) = false := by
    intro i
    by_cases hi : i < s.length
    · exact h i hi
    · rw [List.drop_eq_nil_of_le (Nat.le_of_not_lt hi)]
      decide
  have hfind := findAux_none s markerL h'
  by_cases hs : s.isEmpty
  · simp [get_proxy_endpoint, hs]
  · simp only [get_proxy_endpoint, hs, Bool.false_eq_true, if_false, hfind]

theorem gpe_marker_semi (a x b : List Char)
    (h : ∀ i, i < a.length →
      markerL.isPrefixOf ((a ++ (markerL ++ (x ++ ';' :: b))).drop i) = false)
    (hx : ';' ∉ x) :
    get_proxy_endpoint (a ++ (markerL ++ (x ++ ';' :: b))) = some x := by
  rw [gpe_split a (x ++ ';' :: b) h, pyFind_semi x b ';' hx]
  simp [List.take_left]

theorem gpe_marker_tail (a x : List Char)
    (h : ∀ i, i < a.length →
      markerL.isPrefixOf ((a ++ (markerL ++ x)).drop i) = false)
    (hx : ';' ∉ x) :
    get_proxy_endpoint (a ++ (markerL ++ x)) = some x := by
  rw [gpe_split a x h, pyFind_single_none x ';' hx]

/-- C3: for every credential containing the marker `proxy-ep=` (first
occurrence after the prefix `a`) followed by a value `x` and a semicolon,
`get_proxy_endpoint` returns exactly `x`; with no marker it returns `none`;
with a marker but no following semicolon it returns the remainder of the
string; and it is total, returning `none` on the empty credential. -/
theorem C3_proxy_hint_extractor :
    (∀ a x b : List Char,
        (∀ i, i < a.length →
          markerL.isPrefixOf ((a ++ markerL ++ x ++ ';' :: b).drop i) = false) →
        ';' ∉ x →
        get_proxy_endpoint (a ++ markerL ++ x ++ ';' :: b) = some x)
  ∧ (∀ s : List Char,
        (∀ i, i < s.length → markerL.isPrefixOf (s.drop i) = false) →
        get_proxy_endpoint s = none)
  ∧ (∀ a x : List Char,
        (∀ i, i < a.length →
          markerL.isPrefixOf ((a ++ markerL ++ x).drop i) = false) →
        ';' ∉ x →
        get_proxy_endpoint (a ++ markerL ++ x) = some x)
  ∧ get_proxy_endpoint [] = none := by
  refine ⟨fun a x b h hx => ?_, fun s h => gpe_no_marker s h,
          fun a x h hx => ?_, by decide⟩
  · have := gpe_marker_semi a x b
      (fun i hi => by simpa [List.append_assoc] using h i hi) hx
    simpa [List.append_assoc] using this
  · have := gpe_marker_tail a x
      (fun i hi => by simpa [List.append_assoc] using h i hi) hx
    simpa [List.append_assoc] using this

/-- Witness for C3 at concrete credentials. -/
theorem C3_witness :
    get_proxy_endpoint (chars "tid=1;proxy-ep=example.host;exp=2") =
      some (chars "example.host")
  ∧ get_proxy_endpoint (chars "no hint here") = none
  ∧ get_proxy_endpoint (chars "zz;proxy-ep=tail.host") = some (chars "tail.host")
  ∧ get_proxy_endpoint [] = none := by
  have h := C3_proxy_hint_extractor
  refine ⟨?_, ?_, ?_, h.2.2.2⟩
  · rw [show chars "tid=1;proxy-ep=example.host;exp=2" =
        chars "tid=1;" ++ markerL ++ chars "example.host" ++ ';' :: chars "exp=2"
      from by decide]
    exact h.1 (chars "tid=1;") (chars "example.host") (chars "exp=2")
      (by decide) (by decide)
  · exact h.2.1 (chars "no hint here") (by decide)
  · rw [show chars "zz;proxy-ep=tail.host" =
        chars "zz;" ++ markerL ++ chars "tail.host" from by decide]
    exact h.2.2.1 (chars "zz;") (chars "tail.host") (by decide) (by decide)

/-- C10: a credential whose marker is immediately followed by a semicolon, or
ends right after the marker, yields the empty-string hint `some []` (not
`none`), and the base-host selection treats that empty hint exactly like an
absent hint, falling back to the default enterprise host for internal-family
models. -/
theorem C10_empty_hint (a b : List Char)
    (h1 : ∀ i, i < a.length →
        markerL.isPrefixOf ((a ++ markerL ++ ';' :: b).drop i) = false)
    (h2 : ∀ i, i < a.length →
        markerL.isPrefixOf ((a ++ markerL).drop i) = false) :
    get_proxy_endpoint (a ++ markerL ++ ';' :: b) = some []
  ∧ get_proxy_endpoint (a ++ markerL) = some []
  ∧ ∀ model : List Char, is_internal_model model = true →
      base_host model (some []) = enterpriseHostL
      ∧ base_host model none = enterpriseHostL := by
  refine ⟨?_, ?_, ?_⟩
  · have := gpe_marker_semi a [] b
      (fun i hi => by simpa [List.append_assoc] using h1 i hi) (by simp)
    simpa [List.append_assoc] using this
  · have h2' : ∀ i, i < a.length →
        markerL.isPrefixOf ((a ++ (markerL ++ ([] : List Char))).drop i) = false := by
      intro i hi
      simpa using h2 i hi
    have := gpe_marker_tail a [] h2' (by simp)
    simpa using this
  · intro model him
    constructor <;> simp [base_host, him, optTruthy]

/-- Witness for C10 at a concrete credential and internal model. -/
theorem C10_witness :
    get_proxy_endpoint (chars "x;proxy-ep=;rest") = some []
  ∧ get_proxy_endpoint (chars "x;proxy-ep=") = some []
  ∧ base_host (chars "copilot-int") (some []) = enterpriseHostL := by
  have h := C10_empty_hint (chars "x;") (chars "rest") (by decide) (by decide)
  refine ⟨?_, ?_, ?_⟩
  · rw [show chars "x;proxy-ep=;rest" =
        chars "x;" ++ markerL ++ ';' :: chars "rest" from by decide]
    exact h.1
  · rw [show chars "x;proxy-ep=" = chars "x;" ++ markerL from by decide]
    exact h.2.1
  · exact (h.2.2 (chars "copilot-int") (by decide)).1

/-- C9 counterexample: with `model = "custom"` and `custom_model = ""` the
resolved model identifier is the empty string, contradicting the claimed
invariant; and an override with surrounding whitespace is trimmed, not used
verbatim. -/
theorem C9_counterexample :
    resolve_model (some (chars "custom")) (some []) = []
  ∧ resolve_model (some (chars "custom")) (some (chars " my model ")) ≠
      chars " my model " := by
  decide

/-- C9 (amended): if the trimmed raw identifier equals the sentinel
`"custom"` the trimmed override is used, otherwise the trimmed raw identifier
is used; the resolved identifier is nonempty whenever every explicitly
supplied value is nonempty after trimming (absent values fall back to the
default `gpt-4o`). -/
theorem C9_model_resolution (modelP customP : Option (List Char)) :
    (get_param_str modelP defaultModelL = chars "custom" →
      resolve_model modelP customP = get_param_str customP defaultModelL)
  ∧ (get_param_str modelP defaultModelL ≠ chars "custom" →
      resolve_model modelP customP = get_param_str modelP defaultModelL)
  ∧ ((∀ s, modelP = some s → pyStrip s ≠ []) →
     (∀ s, customP = some s → pyStrip s ≠ []) →
      resolve_model modelP customP ≠ []) := by
  refine ⟨fun h => by simp [resolve_model, h],
          fun h => by simp [resolve_model, h], ?_⟩
  intro hm hc
  by_cases h : get_param_str modelP defaultModelL = chars "custom"
  · rw [show resolve_model modelP customP = get_param_str customP defaultModelL
      from by simp [resolve_model, h]]
    cases customP with
    | none => decide
    | some s => exact hc s rfl
  · rw [show resolve_model modelP customP = get_param_str modelP defaultModelL
      from by simp [resolve_model, h]]
    cases modelP with
    | none => decide
    | some s => exact hm s rfl

/-- Witness for C9 (amended) at concrete parameters. -/
theorem C9_witness :
    resolve_model (some (chars "custom")) (some (chars "my-model")) =
      chars "my-model"
  ∧ resolve_model (some (chars " gpt-4o ")) none ≠ [] := by
  constructor
  · have h := (C9_model_resolution (some (chars "custom"))
      (some (chars "my-model"))).1 (by decide)
    rw [h]
    decide
  · exact (C9_model_resolution (some (chars " gpt-4o ")) none).2.2
      (fun s hs => by injection hs with h; rw [← h]; decide)
      (fun s hs => nomatch hs)

/-! ### Endpoint resolver: C1 -/

theorem isSuffixOf_append_self (l t : List Char) : l.isSuffixOf (t ++ l) = true := by
  simp [List.isSuffixOf_iff_suffix]

theorem strip_append_suffix (p sfx : List Char) :
    (p ++ sfx).take ((p ++ sfx).length - sfx.length) = p := by
  rw [List.length_append, Nat.add_sub_cancel]
  exact List.take_left p sfx

/-- C1: for every codex-family model identifier, a resolved path ending in
`/v1/chat/completions` or `/chat/completions` is rewritten by stripping
exactly that suffix and appending `/completions`, and the request shape is
set to LegacyCompletions. -/
theorem C1_codex_chat_rewrite (model p : List Char)
    (hc : is_codex_model model = true) :
    resolve_shape model (p ++ v1ChatSuffixL) =
      (p ++ completionsL, .legacyCompletions)
  ∧ (v1ChatSuffixL.isSuffixOf (p ++ chatSuffixL) = false →
      resolve_shape model (p ++ chatSuffixL) =
        (p ++ completionsL, .legacyCompletions)) := by
  constructor
  · simp [resolve_shape, hc, isSuffixOf_append_self, strip_append_suffix]
  · intro h
    simp [resolve_shape, hc, h, isSuffixOf_append_self, strip_append_suffix]

/-- Witness for C1 at a concrete codex model and base. -/
theorem C1_witness :
    resolve_shape (chars "gpt-5.1-codex")
        (chars "https://example.com/v1/chat/completions") =
      (chars "https://example.com/completions", .legacyCompletions)
  ∧ resolve_shape (chars "gpt-5.1-codex")
        (chars "https://example.com/chat/completions") =
      (chars "https://example.com/completions", .legacyCompletions) := by
  have h := C1_codex_chat_rewrite (chars "gpt-5.1-codex")
    (chars "https://example.com") (by decide)
  constructor
  · rw [show chars "https://example.com/v1/chat/completions" =
        chars "https://example.com" ++ v1ChatSuffixL from by decide, h.1]
    decide
  · rw [show chars "https://example.com/chat/completions" =
        chars "https://example.com" ++ chatSuffixL from by decide,
      h.2 (by decide)]
    decide

/-! ### Token broker: C2 -/

/-- C2 counterexample: when the second query is not Acquired the error is
the fixed message `authErrorMsg`, which does not name the unresolved status
(here `authorization_pending`); moreover an Acquired response whose
credential is the empty string does not short-circuit the flow: the
interactive flow and the requery still run. -/
theorem C2_counterexample :
    acquire_api_key none (chars "\x7b\"status\":\"authorization_pending\"\x7d")
        (chars "\x7b\"status\":\"authorization_pending\"\x7d") =
      (.botError authErrorMsg,
       [.quickQuery, .interactiveFlow, .requeryAfterFlow])
  ∧ containsSub authErrorMsg (chars "authorization_pending") = false
  ∧ acquire_api_key none
        (chars "\x7b\"status\":\"acquired\",\"copilot_token\":\"\"\x7d")
        (chars "\x7b\"status\":\"authorization_pending\"\x7d") =
      (.botError authErrorMsg,
       [.quickQuery, .interactiveFlow, .requeryAfterFlow]) := by
  refine ⟨rfl, by decide, rfl⟩

/-- C2 (amended): with no supplied key the algorithm first issues QuickQuery;
if it yields an Acquired credential that is truthy (non-empty), that
credential is returned and no further broker operation runs; otherwise
InteractiveFlow runs exactly once followed by exactly one RequeryAfterFlow,
and if the second query does not yield a truthy Acquired credential the
request fails with the fixed authentication error message (which does not
name the unresolved status). -/
theorem C2_broker_algorithm (qt rt : List Char) :
    (∀ j, try_extract_token qt = .tok (some j) → truthyJson j = true →
      acquire_api_key none qt rt = (.key j, [.quickQuery]))
  ∧ (∀ t, try_extract_token qt = .tok t → jTruthyOpt t = false →
      (acquire_api_key none qt rt).2 =
        [.quickQuery, .interactiveFlow, .requeryAfterFlow])
  ∧ (∀ t t2, try_extract_token qt = .tok t → jTruthyOpt t = false →
      try_extract_token rt = .tok t2 → jTruthyOpt t2 = false →
      acquire_api_key none qt rt =
        (.botError authErrorMsg,
         [.quickQuery, .interactiveFlow, .requeryAfterFlow])) := by
  refine ⟨?_, ?_, ?_⟩
  · intro j hq htr
    simp [acquire_api_key, optTruthy, hq, jTruthyOpt, htr]
  · intro t hq ht
    cases hrt : try_extract_token rt with
    | crash => simp [acquire_api_key, optTruthy, hq, ht, hrt]
    | tok t2 =>
      by_cases h2 : jTruthyOpt t2 <;>
        simp [acquire_api_key, optTruthy, hq, ht, hrt, h2]
  · intro t t2 hq ht hrt ht2
    simp [acquire_api_key, optTruthy, hq, ht, hrt, ht2]

/-- Witness for C2 (amended) at concrete broker responses. -/
theorem C2_witness :
    acquire_api_key none
        (chars "\x7b\"status\":\"acquired\",\"copilot_token\":\"tok123\"\x7d")
        (chars "irrelevant") =
      (.key (.str (chars "tok123")), [.quickQuery])
  ∧ (acquire_api_key none (chars "\x7b\"status\":\"authorization_pending\"\x7d")
        (chars "\x7b\"status\":\"acquired\",\"copilot_token\":\"tok123\"\x7d")).2 =
      [.quickQuery, .interactiveFlow, .requeryAfterFlow]
  ∧ acquire_api_key none (chars "\x7b\"status\":\"authorization_pending\"\x7d")
        (chars "\x7b\"status\":\"authorization_pending\"\x7d") =
      (.botError authErrorMsg,
       [.quickQuery, .interactiveFlow, .requeryAfterFlow]) := by
  refine ⟨?_, ?_, ?_⟩
  · exact (C2_broker_algorithm
        (chars "\x7b\"status\":\"acquired\",\"copilot_token\":\"tok123\"\x7d")
        (chars "irrelevant")).1 (.str (chars "tok123")) rfl (by decide)
  · exact (C2_broker_algorithm
        (chars "\x7b\"status\":\"authorization_pending\"\x7d")
        (chars "\x7b\"status\":\"acquired\",\"copilot_token\":\"tok123\"\x7d")).2.1
      none rfl rfl
  · exact (C2_broker_algorithm
        (chars "\x7b\"status\":\"authorization_pending\"\x7d")
        (chars "\x7b\"status\":\"authorization_pending\"\x7d")).2.2
      none none rfl rfl rfl rfl

/-! ### Streaming client: C4, C5, C6 -/

/-- C4: a non-200 initial status yields a fatal `BotError` whose text ends
with the response body, independently of the stream lines (so before any
line is read), and zero deltas are yielded. -/
theorem C4_non200_fatal (isResp : Bool) (st : Nat) (body : List Char)
    (ls ls2 : List (List Char)) (h : st ≠ 200) :
    run_stream isResp ⟨st, body, ls⟩ = .botError (api_error_msg st body)
  ∧ body <:+ api_error_msg st body
  ∧ run_stream isResp ⟨st, body, ls2⟩ = run_stream isResp ⟨st, body, ls⟩
  ∧ stream_deltas (run_stream isResp ⟨st, body, ls⟩) = [] := by
  have h1 : run_stream isResp ⟨st, body, ls⟩ = .botError (api_error_msg st body) := by
    simp [run_stream, h]
  have h2 : run_stream isResp ⟨st, body, ls2⟩ = .botError (api_error_msg st body) := by
    simp [run_stream, h]
  have hsfx : body <:+ api_error_msg st body := by
    unfold api_error_msg
    exact List.suffix_append _ _
  exact ⟨h1, hsfx, h2.trans h1.symm, by rw [h1]; rfl⟩

/-- Witness for C4 at the spec's example: status 401 with an error body. -/
theorem C4_witness :
    run_stream false
        ⟨401, chars "\x7b\"error\":\"bad key\"\x7d", [chars "data: ignored"]⟩ =
      .botError (api_error_msg 401 (chars "\x7b\"error\":\"bad key\"\x7d"))
  ∧ chars "\x7b\"error\":\"bad key\"\x7d" <:+
      api_error_msg 401 (chars "\x7b\"error\":\"bad key\"\x7d")
  ∧ stream_deltas (run_stream false
        ⟨401, chars "\x7b\"error\":\"bad key\"\x7d", [chars "data: ignored"]⟩) = [] := by
  have h := C4_non200_fatal false 401 (chars "\x7b\"error\":\"bad key\"\x7d")
    [chars "data: ignored"] [] (by decide)
  exact ⟨h.1, h.2.1, h.2.2.2⟩

theorem event_not_data (payload : List Char) :
    eventPL.isPrefixOf (dataPL ++ payload) = false := by
  rw [show eventPL = 'e' :: chars "vent: " from rfl,
    show dataPL ++ payload = 'd' :: (chars "ata: " ++ payload) from rfl]
  simp [List.isPrefixOf]

theorem data_drop6 (payload : List Char) : (dataPL ++ payload).drop 6 = payload := by
  rw [show (6 : Nat) = dataPL.length from rfl]
  exact List.drop_left dataPL payload

/-- C5: a `data: ` line whose payload is malformed JSON is skipped without
aborting the stream: processing an SSE line list that starts with it is the
same as processing the remaining lines, so valid deltas after the malformed
line are still delivered. -/
theorem C5_malformed_data_skipped (isResp : Bool) (ev payload : List Char)
    (rest : List (List Char)) (hjson : json_loads payload = none)
    (hdone : payload ≠ doneL) :
    processLines isResp ((dataPL ++ payload) :: rest) ev =
      processLines isResp rest ev := by
  simp only [processLines, event_not_data, Bool.false_eq_true, if_false,
    isPrefixOf_append_self, if_true, data_drop6, hjson]
  rw [if_neg hdone]

/-- Witness for C5: `data: {not json` between two valid delta lines is
skipped and both surrounding deltas arrive. -/
theorem C5_witness :
    processLines false
        [chars "data: \x7bnot json",
         chars "data: \x7b\"choices\":[\x7b\"delta\":\x7b\"content\":\"B\"\x7d\x7d]\x7d"] [] =
      processLines false
        [chars "data: \x7b\"choices\":[\x7b\"delta\":\x7b\"content\":\"B\"\x7d\x7d]\x7d"] []
  ∧ processLines false
        [chars "data: \x7b\"choices\":[\x7b\"delta\":\x7b\"content\":\"A\"\x7d\x7d]\x7d",
         chars "data: \x7bnot json",
         chars "data: \x7b\"choices\":[\x7b\"delta\":\x7b\"content\":\"B\"\x7d\x7d]\x7d"] [] =
      .ok [chars "A", chars "B"] := by
  constructor
  · have h := C5_malformed_data_skipped false [] (chars "\x7bnot json")
      [chars "data: \x7b\"choices\":[\x7b\"delta\":\x7b\"content\":\"B\"\x7d\x7d]\x7d"]
      rfl (by decide)
    exact h
  · rfl

theorem processLines_data_done (isResp : Bool) (ev : List Char)
    (rest : List (List Char)) :
    processLines isResp ((dataPL ++ doneL) :: rest) ev = .ok [] := by
  simp only [processLines, event_not_data, Bool.false_eq_true, if_false,
    isPrefixOf_append_self, if_true, data_drop6]

theorem processLines_data_chunk (isResp : Bool) (ev payload : List Char)
    (rest : List (List Char)) (chunk : Json) (ds : List (List Char))
    (hjson : json_loads payload = some chunk) (hdone : payload ≠ doneL)
    (hex : extract_content isResp ev chunk = some ds) :
    processLines isResp ((dataPL ++ payload) :: rest) ev =
      (match processLines isResp rest ev with
       | .ok tail => .ok (ds ++ tail)
       | .crash => .crash) := by
  simp only [processLines, event_not_data, Bool.false_eq_true, if_false,
    isPrefixOf_append_self, if_true, data_drop6, hjson, hex]
  rw [if_neg hdone]

/-- C6: an SSE body of `data: {"choices":[{"delta":{"content":"Hi"}}]}`
followed by `data: [DONE]` makes the chat-completions streaming client yield
exactly the single delta `"Hi"` and terminate normally; the `[DONE]` payload
produces no further content, whatever lines follow it. -/
theorem C6_single_delta_then_done (extra : List (List Char)) :
    run_stream false ⟨200, [],
      (dataPL ++ chars "\x7b\"choices\":[\x7b\"delta\":\x7b\"content\":\"Hi\"\x7d\x7d]\x7d") ::
      (dataPL ++ doneL) :: extra⟩ = .ok [chars "Hi"] := by
  have h1 := processLines_data_chunk false []
    (chars "\x7b\"choices\":[\x7b\"delta\":\x7b\"content\":\"Hi\"\x7d\x7d]\x7d")
    ((dataPL ++ doneL) :: extra)
    (.obj [(chars "choices",
      .arr [.obj [(chars "delta", .obj [(chars "content", .str (chars "Hi"))])]])])
    [chars "Hi"] rfl (by decide) rfl
  have h2 := processLines_data_done false [] extra
  simp [run_stream, h1, h2]

/-! ### Payload shaping: C7, C8 -/

theorem pyLookup_append_self (kvs : List (List Char × Json)) (k : List Char)
    (v : Json) : pyLookup (kvs ++ [(k, v)]) k = some v := by
  simp [pyLookup, List.reverse_append, List.lookup]

/-- C7: the shaped payload contains a `max_tokens` field exactly when the
slider value is set and positive, in which case the field's value is that
number; when it is 0 (the "unset / no limit" default) or absent, no
`max_tokens` field is present. -/
theorem C7_max_tokens_field (isResp : Bool) (model : List Char)
    (msgs : List Msg) (t tp fp pp : Json) (p : Option Int) :
    pyLookup (build_payload isResp model msgs t tp fp pp (p.getD 0))
        (chars "max_tokens") =
      (if 0 < p.getD 0 then some (.num (p.getD 0)) else none) := by
  by_cases h : 0 < p.getD 0
  · rw [if_pos h]
    have hcond : p.getD 0 ≠ 0 ∧ p.getD 0 > 0 := ⟨ne_of_gt h, h⟩
    unfold build_payload
    rw [if_pos hcond]
    exact pyLookup_append_self _ _ _
  · rw [if_neg h]
    have hcond : ¬(p.getD 0 ≠ 0 ∧ p.getD 0 > 0) := fun hc => h hc.2
    unfold build_payload
    rw [if_neg hcond]
    cases isResp <;>
      simp [pyLookup, List.lookup,
        (by decide : (chars "max_tokens" == chars "model") = false),
        (by decide : (chars "max_tokens" == chars "input") = false),
        (by decide : (chars "max_tokens" == chars "stream") = false),
        (by decide : (chars "max_tokens" == chars "messages") = false),
        (by decide : (chars "max_tokens" == chars "temperature") = false),
        (by decide : (chars "max_tokens" == chars "top_p") = false),
        (by decide : (chars "max_tokens" == chars "frequency_penalty") = false),
        (by decide : (chars "max_tokens" == chars "presence_penalty") = false)]

theorem suffix_intercalate_last (sep : List Char) (ls : List (List Char))
    (last : List Char) :
    last <:+ List.intercalate sep (ls ++ [last]) := by
  induction ls with
  | nil => simp [List.intercalate]
  | cons a ls' ih =>
    cases ls' with
    | nil =>
      simp only [List.intercalate, List.nil_append, List.cons_append,
        List.intersperse_cons₂, List.intersperse_single, List.flatten]
      exact ((List.suffix_append sep _).trans
        (List.suffix_append a _)).trans (by simp)
    | cons b ls'' =>
      simp only [List.intercalate, List.cons_append, List.intersperse_cons₂,
        List.flatten] at ih ⊢
      exact (ih.trans (List.suffix_append sep _)).trans
        (List.suffix_append a _)

/-- C8: flattening produces one `"<role>: <text>"` line per turn plus a
final trailing `"assistant:"` line joined by newlines (splitting the result
on newlines recovers exactly those lines when no turn text embeds a
newline); the prompt always ends in `"assistant:"`; and re-flattening the
same turns yields the same string. -/
theorem C8_prompt_flattening (msgs : List Msg)
    (h : ∀ m ∈ msgs, '\n' ∉ m.role ∧ '\n' ∉ m.content) :
    (messages_to_prompt msgs).splitOn '\n' =
      msgs.map fmtMsg ++ [chars "assistant:"]
  ∧ chars "assistant:" <:+ messages_to_prompt msgs
  ∧ ∀ msgs2, msgs2 = msgs →
      messages_to_prompt msgs2 = messages_to_prompt msgs := by
  refine ⟨?_, suffix_intercalate_last ['\n'] (msgs.map fmtMsg) _,
    fun _ h2 => by rw [h2]⟩
  apply List.splitOn_intercalate
  · intro l hl
    rcases List.mem_append.1 hl with hl | hl
    · rcases List.mem_map.1 hl with ⟨m, hm, rfl⟩
      intro hmem
      rcases List.mem_append.1 hmem with hmem | hmem
      · rcases List.mem_append.1 hmem with hmem | hmem
        · exact (h m hm).1 hmem
        · exact absurd hmem (by decide)
      · exact (h m hm).2 hmem
    · rw [List.mem_singleton.1 hl]
      decide
  · simp

/-- Witness for C8 at a concrete two-turn conversation. -/
theorem C8_witness :
    (messages_to_prompt [⟨chars "user", chars "Hello"⟩,
        ⟨chars "assistant", chars "Yo"⟩]).splitOn '\n' =
      [chars "user: Hello", chars "assistant: Yo", chars "assistant:"]
  ∧ chars "assistant:" <:+
      messages_to_prompt [⟨chars "user", chars "Hello"⟩,
        ⟨chars "assistant", chars "Yo"⟩] := by
  have h := C8_prompt_flattening
    [⟨chars "user", chars "Hello"⟩, ⟨chars "assistant", chars "Yo"⟩]
    (by decide)
  refine ⟨?_, h.2.1⟩
  rw [h.1]
  decide

end CopilotBot
